import Mathlib

/-!
Verification development for the Kaleidoscope rendering service.

The service's numeric code (JavaScript `number` arithmetic) is embedded over `ℚ`,
with the exact rational values of the literals involved.  JavaScript operations
that can produce a non-finite result (division by zero inside the particle
repulsion impulse) are embedded with `Option`, `none` standing for `NaN`.
Strings are embedded as Lean `String`s, and the hex-color regular expression is
embedded as an explicit character-list match over code points, which is what the
regular expression engine inspects.
-/

namespace Kaleidoscope

/-! ## Color utility -/

/-- A character matched by the class `[a-f\d]` of the source regex under the
case-insensitive flag: a decimal digit or a letter `a`-`f` in either case. -/
def isHexDigit (c : Char) : Bool :=
  (48 ≤ c.toNat && c.toNat ≤ 57) || (97 ≤ c.toNat && c.toNat ≤ 102) ||
    (65 ≤ c.toNat && c.toNat ≤ 70)

/-- Value of one hex digit, as `parseInt(-, 16)` assigns it. -/
def hexDigitVal (c : Char) : Nat :=
  if 48 ≤ c.toNat && c.toNat ≤ 57 then c.toNat - 48
  else if 97 ≤ c.toNat && c.toNat ≤ 102 then c.toNat - 87
  else if 65 ≤ c.toNat && c.toNat ≤ 70 then c.toNat - 55
  else 0

/-- The body of the color string after the optional leading `#` (the `#?` of
the source regex `/^#?([a-f\d]{2})([a-f\d]{2})([a-f\d]{2})$/i`). -/
def hexBody (s : String) : List Char :=
  match s.data with
  | '#' :: rest => rest
  | cs => cs

/-- `hexToRgb`: parse a 6-hex-digit color with optional leading `#`;
`none` models the regex returning `null` on malformed input. -/
def hexToRgb (s : String) : Option (Nat × Nat × Nat) :=
  match hexBody s with
  | [c1, c2, c3, c4, c5, c6] =>
    if isHexDigit c1 && isHexDigit c2 && isHexDigit c3 && isHexDigit c4 &&
        isHexDigit c5 && isHexDigit c6 then
      some (16 * hexDigitVal c1 + hexDigitVal c2,
            16 * hexDigitVal c3 + hexDigitVal c4,
            16 * hexDigitVal c5 + hexDigitVal c6)
    else none
  | _ => none

/-- Numeric core of `hexToHsl` on channels already scaled to `[0,1]`:
hue in degrees, saturation, lightness, exactly the source's branches
(the `switch (max)` takes the first matching case). -/
def rgb2hsl (r g b : ℚ) : ℚ × ℚ × ℚ :=
  let mx := max r (max g b)
  let mn := min r (min g b)
  let l := (mx + mn) / 2
  if mx = mn then (0, 0, l)
  else
    let d := mx - mn
    let s := if l > 1/2 then d / (2 - mx - mn) else d / (mx + mn)
    let h :=
      if mx = r then (g - b) / d + (if g < b then 6 else 0)
      else if mx = g then (b - r) / d + 2
      else (r - g) / d + 4
    (h / 6 * 360, s, l)

/-- `hexToHsl`: parse then convert; `none` on unparseable input. -/
def hexToHsl (s : String) : Option (ℚ × ℚ × ℚ) :=
  (hexToRgb s).map fun rgb =>
    rgb2hsl ((rgb.1 : ℚ) / 255) ((rgb.2.1 : ℚ) / 255) ((rgb.2.2 : ℚ) / 255)

/-- The `hue2rgb` helper of `hslToHex`, with the two reassignments of `t`
written as nested conditionals. -/
def hue2rgb (p q t : ℚ) : ℚ :=
  let t1 := if t < 0 then t + 1 else t
  let t2 := if t1 > 1 then t1 - 1 else t1
  if t2 < 1/6 then p + (q - p) * 6 * t2
  else if t2 < 1/2 then q
  else if t2 < 2/3 then p + (q - p) * (2/3 - t2) * 6
  else p

/-- Numeric core of `hslToHex`: hue in degrees back to `[0,1]` channels. -/
def hsl2rgb (h s l : ℚ) : ℚ × ℚ × ℚ :=
  if s = 0 then (l, l, l)
  else
    let h1 := h / 360
    let q := if l < 1/2 then l * (1 + s) else l + s - l * s
    let p := 2 * l - q
    (hue2rgb p q (h1 + 1/3), hue2rgb p q h1, hue2rgb p q (h1 - 1/3))

/-- `Math.round`: round half toward positive infinity. -/
def jsRound (q : ℚ) : ℤ := ⌊q + 1/2⌋

/-- Lowercase hex digit character, as `Number.prototype.toString(16)` emits. -/
def hexDigitChar (n : Nat) : Char :=
  if n < 10 then Char.ofNat (48 + n) else Char.ofNat (87 + n)

/-- Hex digit list of a natural number (most significant first), with fuel
for structural recursion; `natToHexList` supplies enough fuel. -/
def natToHexAux : Nat → Nat → List Char
  | 0, _ => []
  | fuel + 1, n =>
    if n < 16 then [hexDigitChar n]
    else natToHexAux fuel (n / 16) ++ [hexDigitChar (n % 16)]

/-- Hex digit list of a natural number (most significant first). -/
def natToHexList (n : Nat) : List Char := natToHexAux (n + 1) n

/-- `m.toString(16)` for an integer `m`. -/
def intToHexStr (m : ℤ) : String :=
  if m < 0 then "-" ++ String.mk (natToHexList m.natAbs)
  else String.mk (natToHexList m.toNat)

/-- The `toHex` helper of `hslToHex`: round the `[0,1]` channel to a byte,
print in base 16 and left-pad to two digits. -/
def toHexByte (x : ℚ) : String :=
  let hx := intToHexStr (jsRound (x * 255))
  if hx.length = 1 then "0" ++ hx else hx

/-- `hslToHex`: degrees/fraction/fraction to a `#rrggbb` string. -/
def hslToHex (h s l : ℚ) : String :=
  let rgb := hsl2rgb h s l
  "#" ++ toHexByte rgb.1 ++ toHexByte rgb.2.1 ++ toHexByte rgb.2.2

/-- JavaScript truncating conversion used by the `%` operator. -/
def jsTrunc (q : ℚ) : ℤ := if 0 ≤ q then ⌊q⌋ else ⌈q⌉

/-- The JavaScript remainder operator `a % b` on numbers. -/
def jsMod (a b : ℚ) : ℚ := a - b * jsTrunc (a / b)

/-- Hue computation of `interpolateColor`: shortest angular path adjustment,
linear interpolation, then wrap into `[0, 360)`. -/
def interpHue (h1 h2 factor : ℚ) : ℚ :=
  let diff := h2 - h1
  let p := if 180 < |diff| then
             (if 0 < diff then (h1 + 360, h2) else (h1, h2 + 360))
           else (h1, h2)
  let h := p.1 + factor * (p.2 - p.1)
  let hm := jsMod h 360
  if hm < 0 then hm + 360 else hm

/-- `interpolateColor`: convert both endpoints to HSL, interpolate hue by the
shortest path and saturation/lightness linearly; fall back to the first color
if either endpoint is unparseable. -/
def interpolateColor (color1 color2 : String) (factor : ℚ) : String :=
  match hexToHsl color1, hexToHsl color2 with
  | some hsl1, some hsl2 =>
    let h := interpHue hsl1.1 hsl2.1 factor
    let s := hsl1.2.1 + factor * (hsl2.2.1 - hsl1.2.1)
    let l := hsl1.2.2 + factor * (hsl2.2.2 - hsl1.2.2)
    hslToHex h s l
  | _, _ => color1

/-- Canonical `#rrggbb` rendering of a byte triple, the exact output format
of `hslToHex`. -/
def byteHex (n : Nat) : String :=
  let s := intToHexStr (n : ℤ)
  if s.length = 1 then "0" ++ s else s

/-- Canonical color string of three bytes. -/
def hexColorStr (rn gn bn : Nat) : String :=
  "#" ++ byteHex rn ++ byteHex gn ++ byteHex bn

/-- Modelled from the spec: a well-formed color input, "a 6-hex-digit color
(optional leading `#`)".  Used to compare against the parser built from the
source regex. -/
def specValidHex (s : String) : Bool :=
  (hexBody s).length = 6 && (hexBody s).all isHexDigit


/-! ## Exact invertibility of the HSL conversion over ℚ

The source's RGB→HSL→RGB pipeline is exactly invertible in exact rational
arithmetic; this is the engine behind the round-trip and the
self-interpolation properties. -/

theorem hue2rgb_eval_up (p q t : ℚ) (h1 : 0 ≤ t) (h2 : t ≤ 1/6) :
    hue2rgb p q t = p + (q - p) * 6 * t := by
  rcases lt_or_eq_of_le h2 with hlt | heq
  · simp only [hue2rgb]
    split_ifs <;> first | rfl | linarith
  · subst heq
    simp only [hue2rgb]
    norm_num
    try ring

theorem hue2rgb_eval_q (p q t : ℚ) (h1 : 1/6 ≤ t) (h2 : t ≤ 1/2) :
    hue2rgb p q t = q := by
  rcases lt_or_eq_of_le h2 with hlt | heq
  · simp only [hue2rgb]
    split_ifs <;> first | rfl | linarith
  · subst heq
    simp only [hue2rgb]
    norm_num
    try ring

theorem hue2rgb_eval_down (p q t : ℚ) (h1 : 1/2 ≤ t) (h2 : t ≤ 2/3) :
    hue2rgb p q t = p + (q - p) * (2/3 - t) * 6 := by
  rcases lt_or_eq_of_le h2 with hlt | heq
  · rcases lt_or_eq_of_le h1 with hlt2 | heq2
    · simp only [hue2rgb]
      split_ifs <;> first | rfl | linarith
    · rw [← heq2]
      simp only [hue2rgb]
      norm_num
      try ring
  · subst heq
    simp only [hue2rgb]
    norm_num
    try ring

theorem hue2rgb_eval_p_high (p q t : ℚ) (h1 : 2/3 ≤ t) (h2 : t ≤ 1) :
    hue2rgb p q t = p := by
  simp only [hue2rgb]
  split_ifs <;> first | rfl | linarith

theorem hue2rgb_eval_p_neg (p q t : ℚ) (h1 : -(1/3) ≤ t) (h2 : t < 0) :
    hue2rgb p q t = p := by
  simp only [hue2rgb]
  split_ifs <;> first | rfl | linarith

theorem hue2rgb_eval_up_shift (p q t : ℚ) (h1 : 1 ≤ t) (h2 : t ≤ 7/6) :
    hue2rgb p q t = p + (q - p) * 6 * (t - 1) := by
  rcases lt_or_eq_of_le h1 with hlt1 | heq1
  · rcases lt_or_eq_of_le h2 with hlt2 | heq2
    · simp only [hue2rgb]
      split_ifs <;> first | rfl | linarith
    · subst heq2
      simp only [hue2rgb]
      norm_num
      try ring
  · rw [← heq1]
    simp only [hue2rgb]
    norm_num
    try ring

theorem hue2rgb_eval_q_shift (p q t : ℚ) (h1 : 7/6 ≤ t) (h2 : t ≤ 3/2) :
    hue2rgb p q t = q := by
  rcases lt_or_eq_of_le h2 with hlt | heq
  · simp only [hue2rgb]
    split_ifs <;> first | rfl | linarith
  · subst heq
    simp only [hue2rgb]
    norm_num
    try ring

theorem hslS_pos (mx mn : ℚ) (hlt : mn < mx) (h0 : 0 ≤ mn) (h1 : mx ≤ 1) :
    0 < (if (mx + mn) / 2 > 1/2 then (mx - mn) / (2 - mx - mn) else (mx - mn) / (mx + mn)) := by
  split_ifs with hl
  · exact div_pos (by linarith) (by linarith)
  · exact div_pos (by linarith) (by linarith)

theorem hslQ_eq (mx mn : ℚ) (hlt : mn < mx) (h0 : 0 ≤ mn) (h1 : mx ≤ 1) :
    (if (mx + mn) / 2 < 1/2 then
       ((mx + mn) / 2) * (1 + (if (mx + mn) / 2 > 1/2 then (mx - mn) / (2 - mx - mn) else (mx - mn) / (mx + mn)))
     else
       (mx + mn) / 2 + (if (mx + mn) / 2 > 1/2 then (mx - mn) / (2 - mx - mn) else (mx - mn) / (mx + mn))
         - ((mx + mn) / 2) * (if (mx + mn) / 2 > 1/2 then (mx - mn) / (2 - mx - mn) else (mx - mn) / (mx + mn))) = mx := by
  rcases lt_trichotomy ((mx + mn) / 2) (1/2) with hl | hl | hl
  · rw [if_pos hl, if_neg (by linarith)]
    have hs : mx + mn ≠ 0 := by linarith
    field_simp
    ring
  · rw [if_neg (by linarith), if_neg (by linarith)]
    have hs : mx + mn = 1 := by linarith
    have hmn : mn = 1 - mx := by linarith
    subst hmn
    have h2 : mx + (1 - mx) = 1 := by ring
    rw [h2]
    field_simp
    ring
  · rw [if_neg (by linarith), if_pos hl]
    have hs : 2 - mx - mn ≠ 0 := by linarith
    field_simp
    ring

theorem rt_achromatic (r : ℚ) :
    hsl2rgb (rgb2hsl r r r).1 (rgb2hsl r r r).2.1 (rgb2hsl r r r).2.2 = (r, r, r) := by
  have hres : rgb2hsl r r r = (0, 0, (r + r) / 2) := by
    simp only [rgb2hsl, max_self, min_self, if_true]
  rw [hres]
  dsimp only
  simp only [hsl2rgb, if_pos rfl, if_true]
  simp only [Prod.mk.injEq]
  refine ⟨by ring, by ring, by ring⟩

theorem rt_case1a (r g b : ℚ) (h1 : r ≤ 1) (hb0 : 0 ≤ b) (hbg : b ≤ g) (hgr : g ≤ r)
    (hbr : b < r) :
    hsl2rgb (rgb2hsl r g b).1 (rgb2hsl r g b).2.1 (rgb2hsl r g b).2.2 = (r, g, b) := by
  have hmx : max r (max g b) = r := by rw [max_eq_left hbg, max_eq_left hgr]
  have hmn : min r (min g b) = b := by rw [min_eq_right hbg, min_eq_right (le_of_lt hbr)]
  have hres : rgb2hsl r g b =
      ((g - b) / (r - b) / 6 * 360,
       (if (r + b) / 2 > 1/2 then (r - b) / (2 - r - b) else (r - b) / (r + b)),
       (r + b) / 2) := by
    simp only [rgb2hsl]
    rw [hmx, hmn]
    rw [if_neg (ne_of_gt hbr), if_pos rfl, if_neg (not_lt.2 hbg)]
    simp only [add_zero]
  rw [hres]
  dsimp only
  have hS := hslS_pos r b hbr hb0 h1
  simp only [hsl2rgb]
  rw [if_neg (ne_of_gt hS), hslQ_eq r b hbr hb0 h1]
  rw [show 2 * ((r + b) / 2) - r = b from by ring]
  rw [show (g - b) / (r - b) / 6 * 360 / 360 = (g - b) / (r - b) / 6 from by ring]
  have hd : (0:ℚ) < r - b := by linarith
  have hA0 : 0 ≤ (g - b) / (r - b) := div_nonneg (by linarith) hd.le
  have hA1 : (g - b) / (r - b) ≤ 1 := (div_le_one hd).2 (by linarith)
  rw [hue2rgb_eval_q b r ((g - b) / (r - b) / 6 + 1/3) (by linarith) (by linarith),
      hue2rgb_eval_up b r ((g - b) / (r - b) / 6) (by linarith) (by linarith),
      hue2rgb_eval_p_neg b r ((g - b) / (r - b) / 6 - 1/3) (by linarith) (by linarith)]
  have hne : r - b ≠ 0 := hd.ne'
  simp only [Prod.mk.injEq, eq_self_iff_true, true_and, and_true]
  field_simp
  try ring

theorem rt_case1b (r g b : ℚ) (h1 : r ≤ 1) (hg0 : 0 ≤ g) (hgb : g < b) (hbr : b ≤ r) :
    hsl2rgb (rgb2hsl r g b).1 (rgb2hsl r g b).2.1 (rgb2hsl r g b).2.2 = (r, g, b) := by
  have hgr : g < r := lt_of_lt_of_le hgb hbr
  have hmx : max r (max g b) = r := by rw [max_eq_right (le_of_lt hgb), max_eq_left hbr]
  have hmn : min r (min g b) = g := by rw [min_eq_left (le_of_lt hgb), min_eq_right (le_of_lt hgr)]
  have hres : rgb2hsl r g b =
      (((g - b) / (r - g) + 6) / 6 * 360,
       (if (r + g) / 2 > 1/2 then (r - g) / (2 - r - g) else (r - g) / (r + g)),
       (r + g) / 2) := by
    simp only [rgb2hsl]
    rw [hmx, hmn]
    rw [if_neg (ne_of_gt hgr), if_pos rfl, if_pos hgb]
  rw [hres]
  dsimp only
  have hS := hslS_pos r g hgr hg0 h1
  simp only [hsl2rgb]
  rw [if_neg (ne_of_gt hS), hslQ_eq r g hgr hg0 h1]
  rw [show 2 * ((r + g) / 2) - r = g from by ring]
  rw [show ((g - b) / (r - g) + 6) / 6 * 360 / 360 = (g - b) / (r - g) / 6 + 1 from by ring]
  have hd : (0:ℚ) < r - g := by linarith
  have hA1 : (g - b) / (r - g) < 0 := div_neg_of_neg_of_pos (by linarith) hd
  have hA0 : -1 ≤ (g - b) / (r - g) := (le_div_iff hd).mpr (by linarith)
  rw [hue2rgb_eval_q_shift g r ((g - b) / (r - g) / 6 + 1 + 1/3) (by linarith) (by linarith),
      hue2rgb_eval_p_high g r ((g - b) / (r - g) / 6 + 1) (by linarith) (by linarith),
      hue2rgb_eval_down g r ((g - b) / (r - g) / 6 + 1 - 1/3) (by linarith) (by linarith)]
  have hne : r - g ≠ 0 := hd.ne'
  simp only [Prod.mk.injEq, eq_self_iff_true, true_and, and_true]
  field_simp
  try ring

theorem rt_case2a (r g b : ℚ) (hg1 : g ≤ 1) (hr0 : 0 ≤ r) (hrb : r ≤ b) (hbg : b ≤ g)
    (hrg : r < g) :
    hsl2rgb (rgb2hsl r g b).1 (rgb2hsl r g b).2.1 (rgb2hsl r g b).2.2 = (r, g, b) := by
  have hmx : max r (max g b) = g := by rw [max_eq_left hbg, max_eq_right (le_of_lt hrg)]
  have hmn : min r (min g b) = r := by rw [min_eq_right hbg, min_eq_left hrb]
  have hres : rgb2hsl r g b =
      (((b - r) / (g - r) + 2) / 6 * 360,
       (if (g + r) / 2 > 1/2 then (g - r) / (2 - g - r) else (g - r) / (g + r)),
       (g + r) / 2) := by
    simp only [rgb2hsl]
    rw [hmx, hmn]
    rw [if_neg (ne_of_gt hrg), if_neg (ne_of_gt hrg), if_pos rfl]
  rw [hres]
  dsimp only
  have hS := hslS_pos g r hrg hr0 hg1
  simp only [hsl2rgb]
  rw [if_neg (ne_of_gt hS), hslQ_eq g r hrg hr0 hg1]
  rw [show 2 * ((g + r) / 2) - g = r from by ring]
  rw [show ((b - r) / (g - r) + 2) / 6 * 360 / 360 = (b - r) / (g - r) / 6 + 1/3 from by ring]
  have hd : (0:ℚ) < g - r := by linarith
  have hA0 : 0 ≤ (b - r) / (g - r) := div_nonneg (by linarith) hd.le
  have hA1 : (b - r) / (g - r) ≤ 1 := (div_le_one hd).2 (by linarith)
  rw [hue2rgb_eval_p_high r g ((b - r) / (g - r) / 6 + 1/3 + 1/3) (by linarith) (by linarith),
      hue2rgb_eval_q r g ((b - r) / (g - r) / 6 + 1/3) (by linarith) (by linarith),
      hue2rgb_eval_up r g ((b - r) / (g - r) / 6 + 1/3 - 1/3) (by linarith) (by linarith)]
  have hne : g - r ≠ 0 := hd.ne'
  simp only [Prod.mk.injEq, eq_self_iff_true, true_and, and_true]
  field_simp
  try ring

theorem rt_case2b (r g b : ℚ) (hg1 : g ≤ 1) (hb0 : 0 ≤ b) (hbr : b < r) (hrg : r < g) :
    hsl2rgb (rgb2hsl r g b).1 (rgb2hsl r g b).2.1 (rgb2hsl r g b).2.2 = (r, g, b) := by
  have hbg : b < g := lt_trans hbr hrg
  have hmx : max r (max g b) = g := by
    rw [max_eq_left (le_of_lt hbg), max_eq_right (le_of_lt hrg)]
  have hmn : min r (min g b) = b := by
    rw [min_eq_right (le_of_lt hbg), min_eq_right (le_of_lt hbr)]
  have hres : rgb2hsl r g b =
      (((b - r) / (g - b) + 2) / 6 * 360,
       (if (g + b) / 2 > 1/2 then (g - b) / (2 - g - b) else (g - b) / (g + b)),
       (g + b) / 2) := by
    simp only [rgb2hsl]
    rw [hmx, hmn]
    rw [if_neg (ne_of_gt hbg), if_neg (ne_of_gt hrg), if_pos rfl]
  rw [hres]
  dsimp only
  have hS := hslS_pos g b hbg hb0 hg1
  simp only [hsl2rgb]
  rw [if_neg (ne_of_gt hS), hslQ_eq g b hbg hb0 hg1]
  rw [show 2 * ((g + b) / 2) - g = b from by ring]
  rw [show ((b - r) / (g - b) + 2) / 6 * 360 / 360 = (b - r) / (g - b) / 6 + 1/3 from by ring]
  have hd : (0:ℚ) < g - b := by linarith
  have hA1 : (b - r) / (g - b) < 0 := div_neg_of_neg_of_pos (by linarith) hd
  have hA0 : -1 ≤ (b - r) / (g - b) := (le_div_iff hd).mpr (by linarith)
  rw [hue2rgb_eval_down b g ((b - r) / (g - b) / 6 + 1/3 + 1/3) (by linarith) (by linarith),
      hue2rgb_eval_q b g ((b - r) / (g - b) / 6 + 1/3) (by linarith) (by linarith),
      hue2rgb_eval_p_neg b g ((b - r) / (g - b) / 6 + 1/3 - 1/3) (by linarith) (by linarith)]
  have hne : g - b ≠ 0 := hd.ne'
  simp only [Prod.mk.injEq, eq_self_iff_true, true_and, and_true]
  field_simp
  try ring

theorem rt_case3a (r g b : ℚ) (hb1 : b ≤ 1) (hg0 : 0 ≤ g) (hgr : g ≤ r) (hrb : r < b) :
    hsl2rgb (rgb2hsl r g b).1 (rgb2hsl r g b).2.1 (rgb2hsl r g b).2.2 = (r, g, b) := by
  have hgb : g < b := lt_of_le_of_lt hgr hrb
  have hmx : max r (max g b) = b := by
    rw [max_eq_right (le_of_lt hgb), max_eq_right (le_of_lt hrb)]
  have hmn : min r (min g b) = g := by
    rw [min_eq_left (le_of_lt hgb), min_eq_right hgr]
  have hres : rgb2hsl r g b =
      (((r - g) / (b - g) + 4) / 6 * 360,
       (if (b + g) / 2 > 1/2 then (b - g) / (2 - b - g) else (b - g) / (b + g)),
       (b + g) / 2) := by
    simp only [rgb2hsl]
    rw [hmx, hmn]
    rw [if_neg (ne_of_gt hgb), if_neg (ne_of_gt hrb), if_neg (ne_of_gt hgb)]
  rw [hres]
  dsimp only
  have hS := hslS_pos b g hgb hg0 hb1
  simp only [hsl2rgb]
  rw [if_neg (ne_of_gt hS), hslQ_eq b g hgb hg0 hb1]
  rw [show 2 * ((b + g) / 2) - b = g from by ring]
  rw [show ((r - g) / (b - g) + 4) / 6 * 360 / 360 = (r - g) / (b - g) / 6 + 2/3 from by ring]
  have hd : (0:ℚ) < b - g := by linarith
  have hA0 : 0 ≤ (r - g) / (b - g) := div_nonneg (by linarith) hd.le
  have hA1 : (r - g) / (b - g) < 1 := (div_lt_one hd).2 (by linarith)
  rw [hue2rgb_eval_up_shift g b ((r - g) / (b - g) / 6 + 2/3 + 1/3) (by linarith) (by linarith),
      hue2rgb_eval_p_high g b ((r - g) / (b - g) / 6 + 2/3) (by linarith) (by linarith),
      hue2rgb_eval_q g b ((r - g) / (b - g) / 6 + 2/3 - 1/3) (by linarith) (by linarith)]
  have hne : b - g ≠ 0 := hd.ne'
  simp only [Prod.mk.injEq, eq_self_iff_true, true_and, and_true]
  field_simp
  try ring

theorem rt_case3b (r g b : ℚ) (hb1 : b ≤ 1) (hr0 : 0 ≤ r) (hrg : r < g) (hgb : g < b) :
    hsl2rgb (rgb2hsl r g b).1 (rgb2hsl r g b).2.1 (rgb2hsl r g b).2.2 = (r, g, b) := by
  have hrb : r < b := lt_trans hrg hgb
  have hmx : max r (max g b) = b := by
    rw [max_eq_right (le_of_lt hgb), max_eq_right (le_of_lt hrb)]
  have hmn : min r (min g b) = r := by
    rw [min_eq_left (le_of_lt hgb), min_eq_left (le_of_lt hrg)]
  have hres : rgb2hsl r g b =
      (((r - g) / (b - r) + 4) / 6 * 360,
       (if (b + r) / 2 > 1/2 then (b - r) / (2 - b - r) else (b - r) / (b + r)),
       (b + r) / 2) := by
    simp only [rgb2hsl]
    rw [hmx, hmn]
    rw [if_neg (ne_of_gt hrb), if_neg (ne_of_gt hrb), if_neg (ne_of_gt hgb)]
  rw [hres]
  dsimp only
  have hS := hslS_pos b r hrb hr0 hb1
  simp only [hsl2rgb]
  rw [if_neg (ne_of_gt hS), hslQ_eq b r hrb hr0 hb1]
  rw [show 2 * ((b + r) / 2) - b = r from by ring]
  rw [show ((r - g) / (b - r) + 4) / 6 * 360 / 360 = (r - g) / (b - r) / 6 + 2/3 from by ring]
  have hd : (0:ℚ) < b - r := by linarith
  have hA1 : (r - g) / (b - r) < 0 := div_neg_of_neg_of_pos (by linarith) hd
  have hA0 : -1 ≤ (r - g) / (b - r) := (le_div_iff hd).mpr (by linarith)
  rw [hue2rgb_eval_p_high r b ((r - g) / (b - r) / 6 + 2/3 + 1/3) (by linarith) (by linarith),
      hue2rgb_eval_down r b ((r - g) / (b - r) / 6 + 2/3) (by linarith) (by linarith),
      hue2rgb_eval_q r b ((r - g) / (b - r) / 6 + 2/3 - 1/3) (by linarith) (by linarith)]
  have hne : b - r ≠ 0 := hd.ne'
  simp only [Prod.mk.injEq, eq_self_iff_true, true_and, and_true]
  field_simp
  try ring

/-- Exact round trip: on channels in `[0,1]`, the source's RGB→HSL conversion
followed by its HSL→RGB conversion is the identity, in exact arithmetic. -/
theorem hsl2rgb_rgb2hsl (r g b : ℚ) (hr0 : 0 ≤ r) (hr1 : r ≤ 1) (hg0 : 0 ≤ g) (hg1 : g ≤ 1)
    (hb0 : 0 ≤ b) (hb1 : b ≤ 1) :
    hsl2rgb (rgb2hsl r g b).1 (rgb2hsl r g b).2.1 (rgb2hsl r g b).2.2 = (r, g, b) := by
  rcases le_total g r with hgr | hrg
  · rcases le_total b r with hbr | hrb
    · rcases le_total b g with hbg | hgb
      · rcases lt_or_eq_of_le hbr with hlt | heq
        · exact rt_case1a r g b hr1 hb0 hbg hgr hlt
        · subst heq
          have h2 : g = b := le_antisymm hgr hbg
          subst h2
          exact rt_achromatic g
      · rcases lt_or_eq_of_le hgb with hlt | heq
        · exact rt_case1b r g b hr1 hg0 hlt hbr
        · rcases lt_or_eq_of_le hbr with hlt2 | heq2
          · exact rt_case1a r g b hr1 hb0 (le_of_eq heq.symm) hgr hlt2
          · subst heq2
            have h2 : g = b := heq
            subst h2
            exact rt_achromatic g
    · rcases lt_or_eq_of_le hrb with hlt | heq
      · exact rt_case3a r g b hb1 hg0 hgr hlt
      · subst heq
        rcases lt_or_eq_of_le hgr with hlt2 | heq2
        · exact rt_case1b r g r hr1 hg0 hlt2 le_rfl
        · subst heq2
          exact rt_achromatic g
  · rcases le_total b g with hbg | hgb
    · rcases lt_or_eq_of_le hrg with hlt | heq
      · rcases le_total r b with hrb | hbr
        · exact rt_case2a r g b hg1 hr0 hrb hbg hlt
        · rcases lt_or_eq_of_le hbr with hlt2 | heq2
          · exact rt_case2b r g b hg1 hb0 hlt2 hlt
          · exact rt_case2a r g b hg1 hr0 (le_of_eq heq2.symm) hbg hlt
      · subst heq
        rcases lt_or_eq_of_le hbg with hlt2 | heq2
        · exact rt_case1a r r b hr1 hb0 hlt2.le le_rfl hlt2
        · subst heq2
          exact rt_achromatic b
    · rcases lt_or_eq_of_le hgb with hlt | heq
      · rcases lt_or_eq_of_le hrg with hlt2 | heq2
        · exact rt_case3b r g b hb1 hr0 hlt2 hlt
        · exact rt_case3a r g b hb1 hg0 (le_of_eq heq2.symm) (lt_of_le_of_lt (le_of_eq heq2) hlt)
      · rcases lt_or_eq_of_le hrg with hlt2 | heq2
        · exact rt_case2a r g b hg1 hr0 (heq ▸ hrg) (le_of_eq heq.symm) hlt2
        · subst heq2
          have h2 : r = b := heq
          subst h2
          exact rt_achromatic r

/-! ## String-level lemmas: byte rendering and parsing -/

theorem hexDigitChar_isHex (v : Nat) (h : v < 16) : isHexDigit (hexDigitChar v) = true := by
  interval_cases v <;> decide

theorem hexDigitChar_val (v : Nat) (h : v < 16) : hexDigitVal (hexDigitChar v) = v := by
  interval_cases v <;> decide

theorem natToHexList_one (n : Nat) (h : n < 16) : natToHexList n = [hexDigitChar n] := by
  simp [natToHexList, natToHexAux, h]

theorem natToHexList_two (n : Nat) (h16 : 16 ≤ n) (h : n < 256) :
    natToHexList n = [hexDigitChar (n / 16), hexDigitChar (n % 16)] := by
  obtain ⟨m, rfl⟩ : ∃ m, n = m + 1 := ⟨n - 1, by omega⟩
  simp only [natToHexList, natToHexAux]
  rw [if_neg (by omega), if_pos (by omega)]
  rfl

theorem byteHex_data (n : Nat) (h : n < 256) :
    (byteHex n).data = [hexDigitChar (n / 16), hexDigitChar (n % 16)] := by
  have hnn : ¬ ((n:ℤ) < 0) := not_lt.2 (Int.natCast_nonneg n)
  rcases Nat.lt_or_ge n 16 with h16 | h16
  · have hdiv : n / 16 = 0 := by omega
    have hmod : n % 16 = n := by omega
    simp only [byteHex, intToHexStr]
    rw [if_neg hnn, Int.toNat_natCast, natToHexList_one n h16, hdiv, hmod]
    rw [if_pos (show (String.mk [hexDigitChar n]).length = 1 from rfl)]
    rw [String.data_append]
    rfl
  · simp only [byteHex, intToHexStr]
    rw [if_neg hnn, Int.toNat_natCast, natToHexList_two n h16 h]
    rw [if_neg (show ¬ (String.mk [hexDigitChar (n / 16), hexDigitChar (n % 16)]).length = 1
          from by simp [String.length])]

theorem toHexByte_coe (n : Nat) : toHexByte ((n:ℚ) / 255) = byteHex n := by
  simp only [toHexByte, jsRound]
  rw [div_mul_cancel₀ ((n:ℚ)) (by norm_num : (255:ℚ) ≠ 0)]
  rw [show ((n:ℚ) + 1/2) = ((n:ℤ):ℚ) + 1/2 from by push_cast; ring]
  rw [Int.floor_int_add, show ⌊(1/2:ℚ)⌋ = 0 from by norm_num, add_zero]
  rfl

theorem hexColorStr_data (rn gn bn : Nat) (hr : rn < 256) (hg : gn < 256) (hb : bn < 256) :
    (hexColorStr rn gn bn).data =
      '#' :: [hexDigitChar (rn / 16), hexDigitChar (rn % 16),
              hexDigitChar (gn / 16), hexDigitChar (gn % 16),
              hexDigitChar (bn / 16), hexDigitChar (bn % 16)] := by
  simp only [hexColorStr]
  rw [String.data_append, String.data_append, String.data_append,
      byteHex_data rn hr, byteHex_data gn hg, byteHex_data bn hb]
  rfl

theorem hexToRgb_hexColorStr (rn gn bn : Nat) (hr : rn < 256) (hg : gn < 256) (hb : bn < 256) :
    hexToRgb (hexColorStr rn gn bn) = some (rn, gn, bn) := by
  have hdata := hexColorStr_data rn gn bn hr hg hb
  have hdr : rn / 16 < 16 := by omega
  have hmr : rn % 16 < 16 := by omega
  have hdg : gn / 16 < 16 := by omega
  have hmg : gn % 16 < 16 := by omega
  have hdb : bn / 16 < 16 := by omega
  have hmb : bn % 16 < 16 := by omega
  have hbody : hexBody (hexColorStr rn gn bn) =
      [hexDigitChar (rn / 16), hexDigitChar (rn % 16),
       hexDigitChar (gn / 16), hexDigitChar (gn % 16),
       hexDigitChar (bn / 16), hexDigitChar (bn % 16)] := by
    simp only [hexBody, hdata]
  simp only [hexToRgb, hbody]
  rw [if_pos]
  · rw [hexDigitChar_val _ hdr, hexDigitChar_val _ hmr, hexDigitChar_val _ hdg,
        hexDigitChar_val _ hmg, hexDigitChar_val _ hdb, hexDigitChar_val _ hmb]
    have e1 : 16 * (rn / 16) + rn % 16 = rn := by omega
    have e2 : 16 * (gn / 16) + gn % 16 = gn := by omega
    have e3 : 16 * (bn / 16) + bn % 16 = bn := by omega
    rw [e1, e2, e3]
  · rw [hexDigitChar_isHex _ hdr, hexDigitChar_isHex _ hmr, hexDigitChar_isHex _ hdg,
        hexDigitChar_isHex _ hmg, hexDigitChar_isHex _ hdb, hexDigitChar_isHex _ hmb]
    rfl

theorem hexDigitVal_le (c : Char) (h : isHexDigit c = true) : hexDigitVal c ≤ 15 := by
  simp only [isHexDigit, Bool.or_eq_true, Bool.and_eq_true, decide_eq_true_eq] at h
  simp only [hexDigitVal, Bool.and_eq_true, decide_eq_true_eq]
  split_ifs <;> omega

theorem hexToRgb_bytes (s : String) (rn gn bn : Nat) (h : hexToRgb s = some (rn, gn, bn)) :
    rn ≤ 255 ∧ gn ≤ 255 ∧ bn ≤ 255 := by
  rcases hcs : hexBody s with _ | ⟨c1, _ | ⟨c2, _ | ⟨c3, _ | ⟨c4, _ | ⟨c5, _ | ⟨c6, _ | ⟨c7, rest⟩⟩⟩⟩⟩⟩⟩ <;>
    simp only [hexToRgb, hcs] at h
  all_goals try exact Option.noConfusion h
  split_ifs at h with hv
  · simp only [Bool.and_eq_true] at hv
    obtain ⟨⟨⟨⟨⟨hv1, hv2⟩, hv3⟩, hv4⟩, hv5⟩, hv6⟩ := hv
    have b1 := hexDigitVal_le c1 hv1
    have b2 := hexDigitVal_le c2 hv2
    have b3 := hexDigitVal_le c3 hv3
    have b4 := hexDigitVal_le c4 hv4
    have b5 := hexDigitVal_le c5 hv5
    have b6 := hexDigitVal_le c6 hv6
    have h2 := Option.some.inj h
    simp only [Prod.mk.injEq] at h2
    obtain ⟨e1, e2, e3⟩ := h2
    omega

/-! ## Hue range and wrap lemmas -/

theorem rgb2hsl_hue_bounds (r g b : ℚ) (hr0 : 0 ≤ r) (hr1 : r ≤ 1) (hg0 : 0 ≤ g) (hg1 : g ≤ 1)
    (hb0 : 0 ≤ b) (hb1 : b ≤ 1) :
    0 ≤ (rgb2hsl r g b).1 ∧ (rgb2hsl r g b).1 < 360 := by
  have hrM : r ≤ max r (max g b) := le_max_left r (max g b)
  have hgM : g ≤ max r (max g b) := le_trans (le_max_left g b) (le_max_right r (max g b))
  have hbM : b ≤ max r (max g b) := le_trans (le_max_right g b) (le_max_right r (max g b))
  have hmr : min r (min g b) ≤ r := min_le_left r (min g b)
  have hmg : min r (min g b) ≤ g := le_trans (min_le_right r (min g b)) (min_le_left g b)
  have hmb : min r (min g b) ≤ b := le_trans (min_le_right r (min g b)) (min_le_right g b)
  simp only [rgb2hsl]
  rw [apply_ite Prod.fst]
  dsimp only
  split_ifs with h0 h1 h2 h3
  · exact ⟨le_refl 0, by norm_num⟩
  all_goals
    have hd : (0:ℚ) < max r (max g b) - min r (min g b) :=
      sub_pos.2 (lt_of_le_of_ne (le_trans hmr hrM) (fun hx => h0 hx.symm))
  · have hA0 : -1 ≤ (g - b) / (max r (max g b) - min r (min g b)) :=
      (le_div_iff hd).mpr (by linarith)
    have hA1 : (g - b) / (max r (max g b) - min r (min g b)) < 0 :=
      div_neg_of_neg_of_pos (by linarith) hd
    constructor <;> linarith
  · have hA0 : 0 ≤ (g - b) / (max r (max g b) - min r (min g b)) :=
      div_nonneg (by linarith) hd.le
    have hA1 : (g - b) / (max r (max g b) - min r (min g b)) ≤ 1 :=
      (div_le_one hd).2 (by linarith)
    constructor <;> linarith
  · have hA0 : -1 ≤ (b - r) / (max r (max g b) - min r (min g b)) :=
      (le_div_iff hd).mpr (by linarith)
    have hA1 : (b - r) / (max r (max g b) - min r (min g b)) ≤ 1 :=
      (div_le_one hd).2 (by linarith)
    constructor <;> linarith
  · have hA0 : -1 ≤ (r - g) / (max r (max g b) - min r (min g b)) :=
      (le_div_iff hd).mpr (by linarith)
    have hA1 : (r - g) / (max r (max g b) - min r (min g b)) ≤ 1 :=
      (div_le_one hd).2 (by linarith)
    constructor <;> linarith

theorem jsMod_eq_self (a : ℚ) (h0 : 0 ≤ a) (h1 : a < 360) : jsMod a 360 = a := by
  have hq0 : 0 ≤ a / 360 := div_nonneg h0 (by norm_num)
  have hq1 : a / 360 < 1 := (div_lt_one (by norm_num)).2 h1
  simp only [jsMod, jsTrunc, if_pos hq0]
  rw [Int.floor_eq_zero_iff.2 ⟨hq0, hq1⟩]
  simp

theorem jsMod_bounds (a : ℚ) : jsMod a 360 < 360 ∧ -360 < jsMod a 360 := by
  simp only [jsMod, jsTrunc]
  split_ifs with h
  · have h1 := Int.floor_le (a / 360)
    have h2 := Int.lt_floor_add_one (a / 360)
    have heq : a / 360 * 360 = a := div_mul_cancel₀ a (by norm_num)
    constructor <;> linarith
  · have h1 := Int.le_ceil (a / 360)
    have h2 := Int.ceil_lt_add_one (a / 360)
    have heq : a / 360 * 360 = a := div_mul_cancel₀ a (by norm_num)
    constructor <;> linarith

theorem interpHue_bounds (h1 h2 f : ℚ) :
    0 ≤ interpHue h1 h2 f ∧ interpHue h1 h2 f < 360 := by
  have key : ∀ a : ℚ,
      0 ≤ (if jsMod a 360 < 0 then jsMod a 360 + 360 else jsMod a 360) ∧
      (if jsMod a 360 < 0 then jsMod a 360 + 360 else jsMod a 360) < 360 := by
    intro a
    have hb := jsMod_bounds a
    split_ifs with h
    · constructor <;> linarith [hb.1, hb.2]
    · constructor <;> linarith [hb.1, hb.2]
  simp only [interpHue]
  exact key _

theorem interpHue_self (h f : ℚ) (h0 : 0 ≤ h) (h1 : h < 360) : interpHue h h f = h := by
  simp only [interpHue, sub_self, abs_zero]
  rw [if_neg (by norm_num : ¬ (180:ℚ) < 0)]
  dsimp only
  rw [show h + f * (h - h) = h from by ring]
  rw [jsMod_eq_self h h0 h1]
  rw [if_neg (not_lt.2 h0)]

/-! ## Interpolation-level lemmas -/

theorem hslToHex_rt (rn gn bn : Nat) (hr : rn ≤ 255) (hg : gn ≤ 255) (hb : bn ≤ 255) :
    hslToHex (rgb2hsl ((rn:ℚ)/255) ((gn:ℚ)/255) ((bn:ℚ)/255)).1
      (rgb2hsl ((rn:ℚ)/255) ((gn:ℚ)/255) ((bn:ℚ)/255)).2.1
      (rgb2hsl ((rn:ℚ)/255) ((gn:ℚ)/255) ((bn:ℚ)/255)).2.2 = hexColorStr rn gn bn := by
  have c1 : (0:ℚ) ≤ (rn:ℚ)/255 := by positivity
  have c2 : ((rn:ℚ))/255 ≤ 1 := by
    rw [div_le_one (by norm_num)]
    exact_mod_cast hr
  have c3 : (0:ℚ) ≤ (gn:ℚ)/255 := by positivity
  have c4 : ((gn:ℚ))/255 ≤ 1 := by
    rw [div_le_one (by norm_num)]
    exact_mod_cast hg
  have c5 : (0:ℚ) ≤ (bn:ℚ)/255 := by positivity
  have c6 : ((bn:ℚ))/255 ≤ 1 := by
    rw [div_le_one (by norm_num)]
    exact_mod_cast hb
  simp only [hslToHex]
  rw [hsl2rgb_rgb2hsl _ _ _ c1 c2 c3 c4 c5 c6]
  dsimp only
  rw [toHexByte_coe, toHexByte_coe, toHexByte_coe]
  rfl

theorem interp_self (s : String) (rn gn bn : Nat) (f : ℚ)
    (h : hexToRgb s = some (rn, gn, bn)) :
    interpolateColor s s f = hexColorStr rn gn bn := by
  obtain ⟨hr, hg, hb⟩ := hexToRgb_bytes s rn gn bn h
  have hhsl : hexToHsl s = some (rgb2hsl ((rn:ℚ)/255) ((gn:ℚ)/255) ((bn:ℚ)/255)) := by
    simp [hexToHsl, h]
  have c1 : (0:ℚ) ≤ (rn:ℚ)/255 := by positivity
  have c2 : ((rn:ℚ))/255 ≤ 1 := by
    rw [div_le_one (by norm_num)]
    exact_mod_cast hr
  have c3 : (0:ℚ) ≤ (gn:ℚ)/255 := by positivity
  have c4 : ((gn:ℚ))/255 ≤ 1 := by
    rw [div_le_one (by norm_num)]
    exact_mod_cast hg
  have c5 : (0:ℚ) ≤ (bn:ℚ)/255 := by positivity
  have c6 : ((bn:ℚ))/255 ≤ 1 := by
    rw [div_le_one (by norm_num)]
    exact_mod_cast hb
  have hhue := rgb2hsl_hue_bounds ((rn:ℚ)/255) ((gn:ℚ)/255) ((bn:ℚ)/255) c1 c2 c3 c4 c5 c6
  simp only [interpolateColor, hhsl]
  simp only [sub_self, mul_zero, add_zero]
  rw [interpHue_self _ f hhue.1 hhue.2]
  exact hslToHex_rt rn gn bn hr hg hb

theorem interp_fallback (c1 c2 : String) (f : ℚ)
    (h : hexToHsl c1 = none ∨ hexToHsl c2 = none) :
    interpolateColor c1 c2 f = c1 := by
  rcases h with h | h
  · simp [interpolateColor, h]
  · rcases hh : hexToHsl c1 with _ | v <;> simp [interpolateColor, h, hh]

theorem hexToHsl_none_iff (s : String) : hexToHsl s = none ↔ hexToRgb s = none := by
  simp [hexToHsl]

theorem hexToRgb_isSome_iff (s : String) : (hexToRgb s).isSome = specValidHex s := by
  rcases hcs : hexBody s with _ | ⟨c1, _ | ⟨c2, _ | ⟨c3, _ | ⟨c4, _ | ⟨c5, _ | ⟨c6, _ | ⟨c7, rest⟩⟩⟩⟩⟩⟩⟩ <;>
    simp [hexToRgb, specValidHex, hcs, List.all]
  split_ifs with hv
  · simp only [Bool.and_eq_true] at hv
    simp [hv.1.1.1.1.1, hv.1.1.1.1.2, hv.1.1.1.2, hv.1.1.2, hv.1.2, hv.2]
  · simp only [Option.isSome_none]
    symm
    rw [← Bool.not_eq_true]
    intro hcontra
    apply hv
    simp only [Bool.and_eq_true] at hcontra ⊢
    tauto

/-! ## Entity model and shape factory -/

inductive ShapeType where
  | circle | triangle | square | line | pentagon | hexagon | star | cross
deriving DecidableEq

/-- A decorative shape.  `uid` models JavaScript object identity: every call to
the shape factory returns a fresh object, tagged here with a serial number. -/
structure Shape where
  x : ℚ
  y : ℚ
  radius : ℚ
  color : String
  speedX : ℚ
  speedY : ℚ
  opacity : ℚ
  type : ShapeType
  angle : ℚ
  rotationSpeed : ℚ
  hue : Option ℚ := none
  paletteIndex : Option ℤ := none
  transitionProgress : Option ℚ := none
  transitionSpeed : Option ℚ := none
  uid : Nat
deriving DecidableEq

/-- The palette registry of the service (the richer variant's nine palettes). -/
def palettes (name : String) : Option (List String) :=
  if name = "Cosmic Fusion" then
    some ["#3d2c8d", "#916bbf", "#c9a7eb", "#f1e8ff", "#ffabe1", "#ff54d6", "#a239ea", "#6a0dad"]
  else if name = "Oceanic Dream" then
    some ["#003b46", "#07575b", "#66a5ad", "#c4dfe6", "#a1cae2", "#72bcd4", "#55b3d9", "#4281a4"]
  else if name = "Sunset Blaze" then
    some ["#ff4800", "#ff6b35", "#ff875e", "#ffb59a", "#f9c784", "#e85d04", "#dc2f02", "#6a040f"]
  else if name = "Enchanted Forest" then
    some ["#2d6a4f", "#40916c", "#52b788", "#74c69d", "#95d5b2", "#b7e4c7", "#d8f3dc", "#1b4332"]
  else if name = "Neon Noir" then
    some ["#ff00ff", "#00ffff", "#00ff00", "#ffff00", "#ff0055", "#7f00ff", "#007fff", "#ff5e00"]
  else if name = "Pastel Dreams" then
    some ["#AEC6CF", "#FFB347", "#FFD1DC", "#ADD8E6", "#DFFF00", "#C5E1A5"]
  else if name = "Cyberpunk Sunset" then
    some ["#FF00E0", "#40E0D0", "#FF8C00", "#FFD700", "#8A2BE2"]
  else if name = "Mystic Forest" then
    some ["#2E8B57", "#6A5ACD", "#8FBC8F", "#DA70D6", "#483D8B"]
  else if name = "Retro Arcade" then
    some ["#FF6347", "#FFD700", "#00FFFF", "#BA55D3", "#FF4500"]
  else none

/-- One `Math.random()` draw per random expression in `createRandomShape`. -/
structure Randoms where
  rType : ℚ
  rX : ℚ
  rY : ℚ
  rRadius : ℚ
  rSpeedX : ℚ
  rSpeedY : ℚ
  rAngle : ℚ
  rRot : ℚ
  rPalIdx : ℚ
  rProg : ℚ
  rTransSpeed : ℚ
  rHue : ℚ

def shapeTypes : List ShapeType :=
  [.circle, .triangle, .square, .line, .pentagon, .hexagon, .star, .cross]

/-- `Math.PI`, the exact rational value of the IEEE-754 double. -/
def jsPi : ℚ := 884279719003555 / 281474976710656

/-- JavaScript array indexing; out of range yields `undefined`, which the hex
parser receives (after string coercion) as the unparseable text `undefined`. -/
def jsIndex (l : List String) (i : ℤ) : String :=
  if h : 0 ≤ i ∧ i.toNat < l.length then l.get ⟨i.toNat, h.2⟩ else "undefined"

/-- `createRandomShape`, with the `Math.random()` draws supplied in `rnd` and
the fresh object identity in `uid`. -/
def createRandomShape (shapeSize shapeSpeed : ℚ) (currentColorPalette : String)
    (rnd : Randoms) (uid : Nat) : Shape :=
  match palettes currentColorPalette with
  | some palette =>
    let palIdx : ℤ := ⌊rnd.rPalIdx * palette.length⌋
    let nextIndex : ℤ := Int.tmod (palIdx + 1) palette.length
    { x := rnd.rX * 400 - 200
      y := rnd.rY * 400 - 200
      radius := rnd.rRadius * (shapeSize - 5) + 5
      color := interpolateColor (jsIndex palette palIdx) (jsIndex palette nextIndex) rnd.rProg
      speedX := (rnd.rSpeedX * 2 - 1) * shapeSpeed
      speedY := (rnd.rSpeedY * 2 - 1) * shapeSpeed
      opacity := 1
      type := (shapeTypes.get? (⌊rnd.rType * 8⌋).toNat).getD ShapeType.circle
      angle := rnd.rAngle * jsPi * 2
      rotationSpeed := (rnd.rRot - 0.5) * 0.05
      hue := none
      paletteIndex := some palIdx
      transitionProgress := some rnd.rProg
      transitionSpeed := some (rnd.rTransSpeed * 0.005 + 0.002)
      uid := uid }
  | none =>
    let hue := rnd.rHue * 360
    { x := rnd.rX * 400 - 200
      y := rnd.rY * 400 - 200
      radius := rnd.rRadius * (shapeSize - 5) + 5
      color := "hsl(" ++ toString hue ++ ", 100%, 70%)"
      speedX := (rnd.rSpeedX * 2 - 1) * shapeSpeed
      speedY := (rnd.rSpeedY * 2 - 1) * shapeSpeed
      opacity := 1
      type := (shapeTypes.get? (⌊rnd.rType * 8⌋).toNat).getD ShapeType.circle
      angle := rnd.rAngle * jsPi * 2
      rotationSpeed := (rnd.rRot - 0.5) * 0.05
      hue := some hue
      paletteIndex := none
      transitionProgress := none
      transitionSpeed := none
      uid := uid }

/-! ## Configuration manager -/

structure KaleidoscopeConfig where
  numSlices : Option ℚ := none
  maxShapes : Option Nat := none
  shapeSize : Option ℚ := none
  shapeSpeed : Option ℚ := none
  rotationSpeed : Option ℚ := none
  colorPalette : Option String := none

structure KState where
  numSlices : ℚ
  maxShapes : Nat
  shapeSize : ℚ
  shapeSpeed : ℚ
  rotationSpeed : ℚ
  currentColorPalette : String
  shapes : List Shape
  nextUid : Nat
deriving DecidableEq

/-- `adjustShapesArray`: grow by pushing fresh shapes, or truncate in place. -/
def adjustShapesArray (st : KState) (rs : Nat → Randoms) : KState :=
  if st.shapes.length < st.maxShapes then
    let diff := st.maxShapes - st.shapes.length
    { st with
      shapes := st.shapes ++ (List.range diff).map (fun i =>
        createRandomShape st.shapeSize st.shapeSpeed st.currentColorPalette
          (rs (st.nextUid + i)) (st.nextUid + i)),
      nextUid := st.nextUid + diff }
  else
    { st with shapes := st.shapes.take st.maxShapes }

/-- `if (config.numSlices !== undefined) this.numSlices = config.numSlices`. -/
def applyNumSlices (st : KState) (o : Option ℚ) : KState :=
  match o with
  | some v => { st with numSlices := v }
  | none => st

/-- The palette statement of `updateConfig`: assign on change and report
whether a shape reset became necessary. -/
def applyPalette (st : KState) (o : Option String) : Bool × KState :=
  match o with
  | some v => if v ≠ st.currentColorPalette then (true, { st with currentColorPalette := v })
              else (false, st)
  | none => (false, st)

/-- The shape-size statement of `updateConfig`. -/
def applySize (st : KState) (o : Option ℚ) : Bool × KState :=
  match o with
  | some v => if v ≠ st.shapeSize then (true, { st with shapeSize := v }) else (false, st)
  | none => (false, st)

/-- The shape-speed statement of `updateConfig`. -/
def applySpeed (st : KState) (o : Option ℚ) : Bool × KState :=
  match o with
  | some v => if v ≠ st.shapeSpeed then (true, { st with shapeSpeed := v }) else (false, st)
  | none => (false, st)

/-- `if (config.rotationSpeed !== undefined) this.rotationSpeed = ...`. -/
def applyRotation (st : KState) (o : Option ℚ) : KState :=
  match o with
  | some v => { st with rotationSpeed := v }
  | none => st

/-- `updateConfig`: apply present fields, track whether palette, size or speed
changed, then either adjust the collection length (when `maxShapes` changed)
or, only otherwise, clear and regenerate when a reset is needed. -/
def updateConfig (st0 : KState) (cfg : KaleidoscopeConfig) (rs : Nat → Randoms) : KState :=
  let st1 := applyNumSlices st0 cfg.numSlices
  let pc := applyPalette st1 cfg.colorPalette
  let sz := applySize pc.2 cfg.shapeSize
  let sp := applySpeed sz.2 cfg.shapeSpeed
  let st5 := applyRotation sp.2 cfg.rotationSpeed
  let needsShapeReset := pc.1 || sz.1 || sp.1
  match cfg.maxShapes with
  | some v =>
    if v ≠ st5.maxShapes then adjustShapesArray { st5 with maxShapes := v } rs
    else if needsShapeReset then adjustShapesArray { st5 with shapes := [] } rs
    else st5
  | none =>
    if needsShapeReset then adjustShapesArray { st5 with shapes := [] } rs
    else st5

/-! ## Particles -/

structure Particle where
  x : ℚ
  y : ℚ
  radius : ℚ
  speedX : ℚ
  speedY : ℚ
  baseSpeedX : ℚ
  baseSpeedY : ℚ
  opacity : ℚ
  trail : List (ℚ × ℚ)
deriving DecidableEq

/-- Pointer repulsion impulse of `drawBackground`.  `dist` is the value
`Math.sqrt(dx*dx + dy*dy)`; at `dist = 0` the source divides zero by zero,
which is `NaN` in JavaScript, modelled as `none`. -/
def particleRepel (p : Particle) (mx my dist : ℚ) : Option Particle :=
  if dist < 150 then
    let force := (150 - dist) / 150
    if dist = 0 then none
    else some { p with
      speedX := p.speedX + (p.x - mx) / dist * force * 0.5,
      speedY := p.speedY + (p.y - my) / dist * force * 0.5 }
  else some p

/-- Easing of the velocity back toward the base velocity. -/
def particleEase (p : Particle) : Particle :=
  { p with speedX := p.speedX + (p.baseSpeedX - p.speedX) * 0.05,
           speedY := p.speedY + (p.baseSpeedY - p.speedY) * 0.05 }

/-- Trail recording: push the pre-move position, drop the oldest entry past 30. -/
def particleTrailPush (p : Particle) : Particle :=
  let t := p.trail ++ [(p.x, p.y)]
  { p with trail := if 30 < t.length then t.tail else t }

/-- Position advance by velocity. -/
def particleMove (p : Particle) : Particle :=
  { p with x := p.x + p.speedX, y := p.y + p.speedY }

/-- Edge wrap: each axis is tested sequentially as in the source, and the
trail is cleared whenever any wrap fired. -/
def particleWrap (p : Particle) (w h : ℚ) : Particle :=
  let x1 := if p.x < 0 then w else p.x
  let x2 := if x1 > w then 0 else x1
  let y1 := if p.y < 0 then h else p.y
  let y2 := if y1 > h then 0 else y1
  let wrapped := p.x < 0 ∨ x1 > w ∨ p.y < 0 ∨ y1 > h
  { p with x := x2, y := y2, trail := if wrapped then [] else p.trail }

/-- The per-particle body of `drawBackground` before the wrap: optional
repulsion (given the pointer and the computed distance), easing, trail push,
move. -/
def particleStepPre (p : Particle) (m : Option (ℚ × ℚ × ℚ)) : Option Particle :=
  match m with
  | none => some (particleMove (particleTrailPush (particleEase p)))
  | some (mx, my, dist) =>
    (particleRepel p mx my dist).map fun q => particleMove (particleTrailPush (particleEase q))

/-- The full per-particle simulation step of `drawBackground`. -/
def particleStep (p : Particle) (w h : ℚ) (m : Option (ℚ × ℚ × ℚ)) : Option Particle :=
  (particleStepPre p m).map fun q => particleWrap q w h

/-! ## Shape drawing order -/

/-- The state effect of `drawShapes` on the service: the paint order is the
copy `[...this.shapes]` sorted ascending by radius in place, while the
service's own array is left untouched.  Returns (array retained by the
service, paint order). -/
def drawShapes (shapes : List Shape) : List Shape × List Shape :=
  let shapesToDraw := shapes
  (shapes, shapesToDraw.mergeSort fun a b => decide (a.radius ≤ b.radius))

/-! ## Particle wrap lemmas -/

theorem particleWrap_trail (q : Particle) (w h : ℚ)
    (hcross : q.x < 0 ∨ q.x > w ∨ q.y < 0 ∨ q.y > h) :
    (particleWrap q w h).trail = [] := by
  simp only [particleWrap]
  rw [if_pos]
  rcases hcross with hx | hx | hy | hy
  · exact Or.inl hx
  · by_cases h0 : q.x < 0
    · exact Or.inl h0
    · exact Or.inr (Or.inl (by rw [if_neg h0]; exact hx))
  · exact Or.inr (Or.inr (Or.inl hy))
  · by_cases h0 : q.y < 0
    · exact Or.inr (Or.inr (Or.inl h0))
    · exact Or.inr (Or.inr (Or.inr (by rw [if_neg h0]; exact hy)))

theorem particleWrap_x_neg (q : Particle) (w h : ℚ) (hx : q.x < 0) :
    (particleWrap q w h).x = w := by
  simp only [particleWrap]
  rw [if_pos hx, if_neg (lt_irrefl w)]

theorem particleWrap_x_far (q : Particle) (w h : ℚ) (h0 : ¬ q.x < 0) (hx : q.x > w) :
    (particleWrap q w h).x = 0 := by
  simp only [particleWrap]
  rw [if_neg h0, if_pos hx]

theorem particleWrap_y_neg (q : Particle) (w h : ℚ) (hy : q.y < 0) :
    (particleWrap q w h).y = h := by
  simp only [particleWrap]
  rw [if_pos hy, if_neg (lt_irrefl h)]

theorem particleWrap_y_far (q : Particle) (w h : ℚ) (h0 : ¬ q.y < 0) (hy : q.y > h) :
    (particleWrap q w h).y = 0 := by
  simp only [particleWrap]
  rw [if_neg h0, if_pos hy]

/-- C6: in every particle simulation step, a particle whose updated position
crosses a surface edge is placed at the opposite edge within the same step,
and its trail is empty immediately after the wrap. -/
theorem c6_wrap_opposite_edge (p : Particle) (w h : ℚ) (m : Option (ℚ × ℚ × ℚ))
    (q : Particle) (hq : particleStepPre p m = some q)
    (hcross : q.x < 0 ∨ q.x > w ∨ q.y < 0 ∨ q.y > h) :
    ∃ q2, particleStep p w h m = some q2 ∧ q2.trail = [] ∧
      (q.x < 0 → q2.x = w) ∧ (¬ q.x < 0 → q.x > w → q2.x = 0) ∧
      (q.y < 0 → q2.y = h) ∧ (¬ q.y < 0 → q.y > h → q2.y = 0) := by
  refine ⟨particleWrap q w h, ?_, particleWrap_trail q w h hcross, ?_, ?_, ?_, ?_⟩
  · simp [particleStep, hq]
  · exact fun hx => particleWrap_x_neg q w h hx
  · exact fun h0 hx => particleWrap_x_far q w h h0 hx
  · exact fun hy => particleWrap_y_neg q w h hy
  · exact fun h0 hy => particleWrap_y_far q w h h0 hy

/-- C6 witness: a concrete particle that crosses the left edge wraps to the
right edge with an empty trail. -/
theorem c6_witness :
    ∃ q2, particleStep ⟨-1, 3, 1, 0, 0, 0, 0, 1, [(0, 0)]⟩ 10 10 none = some q2 ∧
      q2.trail = [] ∧ q2.x = 10 := by
  have hq : particleStepPre ⟨-1, 3, 1, 0, 0, 0, 0, 1, [(0, 0)]⟩ none =
      some (particleMove (particleTrailPush (particleEase ⟨-1, 3, 1, 0, 0, 0, 0, 1, [(0, 0)]⟩))) := rfl
  have hx : (particleMove (particleTrailPush (particleEase ⟨-1, 3, 1, 0, 0, 0, 0, 1, [(0, 0)]⟩))).x < 0 := by
    simp only [particleMove, particleTrailPush, particleEase]
    norm_num
  obtain ⟨q2, h1, h2, h3, _, _, _⟩ :=
    c6_wrap_opposite_edge ⟨-1, 3, 1, 0, 0, 0, 0, 1, [(0, 0)]⟩ 10 10 none _ hq (Or.inl hx)
  exact ⟨q2, h1, h2, h3 hx⟩

/-- C10 counterexample: with the pointer exactly at the particle's position the
distance is zero, the particle is strictly inside the interaction radius, and
the repulsion update divides by zero (`NaN` velocity, modelled as `none`). -/
theorem c10_counterexample :
    particleRepel ⟨0, 0, 1, 0, 0, 0, 0, 1, []⟩ 0 0 0 = none ∧
    (0:ℚ) * 0 = (0 - 0) ^ 2 + (0 - 0) ^ 2 ∧ (0:ℚ) < 150 := by
  refine ⟨?_, by norm_num, by norm_num⟩
  norm_num [particleRepel]

/-- C10 amended: whenever the pointer distance is nonzero, the repulsion update
is defined and produces the finite rational velocity components of the impulse
formula; at distance zero the source divides by zero. -/
theorem c10_repulsion_finite (p : Particle) (mx my dist : ℚ) (hne : dist ≠ 0) :
    (particleRepel p mx my dist).isSome = true ∧
    (dist < 150 →
      particleRepel p mx my dist = some { p with
        speedX := p.speedX + (p.x - mx) / dist * ((150 - dist) / 150) * 0.5,
        speedY := p.speedY + (p.y - my) / dist * ((150 - dist) / 150) * 0.5 }) := by
  unfold particleRepel
  split_ifs with h1
  · exact ⟨rfl, fun _ => rfl⟩
  · exact ⟨rfl, fun hc => absurd hc h1⟩

/-- C10 witness: a particle at distance 5 from the pointer gets a defined,
finite repulsion update. -/
theorem c10_witness :
    (5:ℚ) ≠ 0 ∧ (particleRepel ⟨3, 4, 1, 0, 0, 0, 0, 1, []⟩ 0 0 5).isSome = true := by
  constructor
  · norm_num
  · exact (c10_repulsion_finite ⟨3, 4, 1, 0, 0, 0, 0, 1, []⟩ 0 0 5 (by norm_num)).1

/-! ## Shape factory color-state variant and draw order -/

theorem createRandomShape_palette_state (shapeSize shapeSpeed : ℚ) (name : String)
    (rnd : Randoms) (uid : Nat) :
    ((createRandomShape shapeSize shapeSpeed name rnd uid).hue.isSome = !(palettes name).isSome) ∧
    ((createRandomShape shapeSize shapeSpeed name rnd uid).paletteIndex.isSome =
      (palettes name).isSome) ∧
    ((createRandomShape shapeSize shapeSpeed name rnd uid).transitionProgress.isSome =
      (palettes name).isSome) ∧
    ((createRandomShape shapeSize shapeSpeed name rnd uid).transitionSpeed.isSome =
      (palettes name).isSome) := by
  rcases hp : palettes name with _ | pal <;> simp [createRandomShape, hp]

/-- C8: every generated shape has exactly one active color-state variant:
palette-index state (with transition progress and speed, and no hue) exactly
when the palette name resolves in the registry, and hue state (with no
palette-index fields) otherwise; in particular "Random" is unregistered. -/
theorem c8_one_color_variant (shapeSize shapeSpeed : ℚ) (name : String)
    (rnd : Randoms) (uid : Nat) :
    ((createRandomShape shapeSize shapeSpeed name rnd uid).hue.isSome = !(palettes name).isSome) ∧
    ((createRandomShape shapeSize shapeSpeed name rnd uid).paletteIndex.isSome =
      (palettes name).isSome) ∧
    ((createRandomShape shapeSize shapeSpeed name rnd uid).transitionProgress.isSome =
      (palettes name).isSome) ∧
    ((createRandomShape shapeSize shapeSpeed name rnd uid).transitionSpeed.isSome =
      (palettes name).isSome) ∧
    palettes "Random" = none ∧ (palettes "Neon Noir").isSome = true := by
  obtain ⟨h1, h2, h3, h4⟩ := createRandomShape_palette_state shapeSize shapeSpeed name rnd uid
  exact ⟨h1, h2, h3, h4, by decide, by decide⟩

/-- C9: drawing the shape layer paints a sorted copy and leaves the service's
own shapes array untouched: iterating the `drawShapes` state effect any number
of times is the identity, and the paint order is a permutation of the shapes
sorted ascending by radius. -/
theorem c9_drawShapes_preserves (shapes : List Shape) (n : Nat) :
    (fun l => (drawShapes l).1)^[n] shapes = shapes ∧
    (drawShapes shapes).2.Perm shapes ∧
    (drawShapes shapes).2.Pairwise (fun a b => a.radius ≤ b.radius) := by
  refine ⟨Function.iterate_fixed rfl n, List.mergeSort_perm shapes _, ?_⟩
  have hsorted := @List.sorted_mergeSort Shape (fun a b => decide (a.radius ≤ b.radius))
    (fun a b c hab hbc => by
      simp only [decide_eq_true_eq] at hab hbc ⊢
      exact le_trans hab hbc)
    (fun a b => by
      simp only [Bool.or_eq_true, decide_eq_true_eq]
      exact le_total a.radius b.radius)
    shapes
  exact hsorted.imp (fun hab => of_decide_eq_true hab)

/-! ## Configuration claims -/

theorem adjust_empty_facts (stb : KState) (st : KState) (rs : Nat → Randoms)
    (hmaxeq : stb.maxShapes = st.maxShapes) (huid : stb.nextUid = st.nextUid)
    (hsh : stb.shapes = [])
    (hinv : ∀ sh ∈ st.shapes, sh.uid < st.nextUid) :
    (adjustShapesArray stb rs).shapes.length = st.maxShapes ∧
    (∀ sh ∈ (adjustShapesArray stb rs).shapes, st.nextUid ≤ sh.uid) ∧
    (∀ sh ∈ (adjustShapesArray stb rs).shapes, sh ∉ st.shapes) := by
  have hmem : ∀ sh ∈ (adjustShapesArray stb rs).shapes, st.nextUid ≤ sh.uid := by
    intro sh hsh2
    simp only [adjustShapesArray, hsh, List.length_nil, List.nil_append] at hsh2
    split_ifs at hsh2 with hlt
    · simp only [List.mem_map, List.mem_range] at hsh2
      obtain ⟨i, _, rfl⟩ := hsh2
      simp only [createRandomShape]
      rcases palettes stb.currentColorPalette with _ | pal <;> simp <;> omega
    · simp at hsh2
  have hlen : (adjustShapesArray stb rs).shapes.length = st.maxShapes := by
    simp only [adjustShapesArray, hsh, List.length_nil, List.nil_append]
    split_ifs with hlt
    · simp [← hmaxeq]
    · simp only [List.take_nil, List.length_nil]
      omega
  refine ⟨hlen, hmem, fun sh hsh2 hmem2 => ?_⟩
  have h1 := hmem sh hsh2
  have h2 := hinv sh hmem2
  omega

/-- C5: a `maxShapes`-only update with a new value adjusts the collection:
growing appends fresh shapes after the unchanged existing ones (so the final
length is the new count and all previously existing shapes survive unchanged
as a prefix), and shrinking truncates from the end, keeping the
earliest-created shapes. -/
theorem c5_maxShapes_only (st : KState) (N : Nat) (rs : Nat → Randoms)
    (hlen : st.shapes.length = st.maxShapes) (hne : N ≠ st.maxShapes) :
    ((updateConfig st { maxShapes := some N } rs).shapes.length = N) ∧
    (st.maxShapes < N →
      (updateConfig st { maxShapes := some N } rs).shapes.take st.shapes.length = st.shapes) ∧
    (N < st.maxShapes →
      (updateConfig st { maxShapes := some N } rs).shapes = st.shapes.take N) := by
  have hred : updateConfig st { maxShapes := some N } rs =
      adjustShapesArray { st with maxShapes := N } rs := by
    simp only [updateConfig, applyNumSlices, applyPalette, applySize, applySpeed, applyRotation]
    rw [if_pos hne]
  rw [hred]
  simp only [adjustShapesArray]
  split_ifs with hlt
  · refine ⟨?_, fun _ => ?_, fun hcon => absurd hcon (by omega)⟩
    · simp
      omega
    · exact List.take_left st.shapes _
  · refine ⟨?_, fun hcon => absurd hcon (by omega), fun _ => rfl⟩
    simp only [List.length_take]
    omega

def rnd0 : Randoms := ⟨1/2, 1/2, 1/2, 1/2, 1/2, 1/2, 1/2, 1/2, 1/2, 1/2, 1/2, 1/2⟩

def rs0 : Nat → Randoms := fun j => rnd0

def shape0 : Shape :=
  { x := 0, y := 0, radius := 1, color := "", speedX := 0, speedY := 0, opacity := 1,
    type := ShapeType.circle, angle := 0, rotationSpeed := 0, uid := 0 }

def st0 : KState :=
  { numSlices := 12, maxShapes := 1, shapeSize := 25, shapeSpeed := 1, rotationSpeed := 1,
    currentColorPalette := "Random", shapes := [shape0], nextUid := 1 }

def cfg0 : KaleidoscopeConfig := { maxShapes := some 2, shapeSpeed := some 2 }

def cfg1 : KaleidoscopeConfig := { shapeSpeed := some 2 }

/-- C5 witness: growing a concrete one-shape state to three shapes. -/
theorem c5_witness :
    st0.shapes.length = st0.maxShapes ∧ (3:Nat) ≠ st0.maxShapes ∧
    (updateConfig st0 { maxShapes := some 3 } rs0).shapes.length = 3 := by
  have e1 : st0.shapes.length = st0.maxShapes := by decide
  have e2 : (3:Nat) ≠ st0.maxShapes := by decide
  exact ⟨e1, e2, (c5_maxShapes_only st0 3 rs0 e1 e2).1⟩

theorem applyNumSlices_fields (st : KState) (o : Option ℚ) :
    (applyNumSlices st o).maxShapes = st.maxShapes ∧
    (applyNumSlices st o).nextUid = st.nextUid ∧
    (applyNumSlices st o).shapes = st.shapes ∧
    (applyNumSlices st o).currentColorPalette = st.currentColorPalette ∧
    (applyNumSlices st o).shapeSize = st.shapeSize ∧
    (applyNumSlices st o).shapeSpeed = st.shapeSpeed := by
  cases o <;> simp [applyNumSlices]

theorem applyPalette_fields (st : KState) (o : Option String) :
    (applyPalette st o).2.maxShapes = st.maxShapes ∧
    (applyPalette st o).2.nextUid = st.nextUid ∧
    (applyPalette st o).2.shapes = st.shapes ∧
    (applyPalette st o).2.shapeSize = st.shapeSize ∧
    (applyPalette st o).2.shapeSpeed = st.shapeSpeed := by
  cases o with
  | none => simp [applyPalette]
  | some v =>
    simp only [applyPalette]
    split_ifs <;> simp

theorem applyPalette_flag (st : KState) (o : Option String)
    (h : ∃ v, o = some v ∧ v ≠ st.currentColorPalette) :
    (applyPalette st o).1 = true := by
  obtain ⟨v, rfl, hne⟩ := h
  simp only [applyPalette]
  rw [if_pos hne]

theorem applySize_fields (st : KState) (o : Option ℚ) :
    (applySize st o).2.maxShapes = st.maxShapes ∧
    (applySize st o).2.nextUid = st.nextUid ∧
    (applySize st o).2.shapes = st.shapes ∧
    (applySize st o).2.currentColorPalette = st.currentColorPalette ∧
    (applySize st o).2.shapeSpeed = st.shapeSpeed := by
  cases o with
  | none => simp [applySize]
  | some v =>
    simp only [applySize]
    split_ifs <;> simp

theorem applySize_flag (st : KState) (o : Option ℚ)
    (h : ∃ v, o = some v ∧ v ≠ st.shapeSize) :
    (applySize st o).1 = true := by
  obtain ⟨v, rfl, hne⟩ := h
  simp only [applySize]
  rw [if_pos hne]

theorem applySpeed_fields (st : KState) (o : Option ℚ) :
    (applySpeed st o).2.maxShapes = st.maxShapes ∧
    (applySpeed st o).2.nextUid = st.nextUid ∧
    (applySpeed st o).2.shapes = st.shapes := by
  cases o with
  | none => simp [applySpeed]
  | some v =>
    simp only [applySpeed]
    split_ifs <;> simp

theorem applySpeed_flag (st : KState) (o : Option ℚ)
    (h : ∃ v, o = some v ∧ v ≠ st.shapeSpeed) :
    (applySpeed st o).1 = true := by
  obtain ⟨v, rfl, hne⟩ := h
  simp only [applySpeed]
  rw [if_pos hne]

theorem applyRotation_fields (st : KState) (o : Option ℚ) :
    (applyRotation st o).maxShapes = st.maxShapes ∧
    (applyRotation st o).nextUid = st.nextUid ∧
    (applyRotation st o).shapes = st.shapes := by
  cases o <;> simp [applyRotation]

/-- C1 amended: when palette, size or speed changes and `maxShapes` is absent
or unchanged, the collection is cleared and fully regenerated: afterwards it
has `maxShapes` entries and every entry is a freshly created shape, none of
the pre-existing ones. -/
theorem c1_reset_regenerates (st : KState) (cfg : KaleidoscopeConfig) (rs : Nat → Randoms)
    (hreset : (∃ v, cfg.colorPalette = some v ∧ v ≠ st.currentColorPalette) ∨
              (∃ v, cfg.shapeSize = some v ∧ v ≠ st.shapeSize) ∨
              (∃ v, cfg.shapeSpeed = some v ∧ v ≠ st.shapeSpeed))
    (hmax : cfg.maxShapes = none ∨ cfg.maxShapes = some st.maxShapes)
    (hinv : ∀ sh ∈ st.shapes, sh.uid < st.nextUid) :
    (updateConfig st cfg rs).shapes.length = st.maxShapes ∧
    (∀ sh ∈ (updateConfig st cfg rs).shapes, st.nextUid ≤ sh.uid) ∧
    (∀ sh ∈ (updateConfig st cfg rs).shapes, sh ∉ st.shapes) := by
  obtain ⟨f1, f2, f3, f4, f5, f6⟩ := applyNumSlices_fields st cfg.numSlices
  obtain ⟨g1, g2, g3, g4, g5⟩ := applyPalette_fields (applyNumSlices st cfg.numSlices) cfg.colorPalette
  obtain ⟨i1, i2, i3, i4, i5⟩ :=
    applySize_fields (applyPalette (applyNumSlices st cfg.numSlices) cfg.colorPalette).2 cfg.shapeSize
  obtain ⟨j1, j2, j3⟩ := applySpeed_fields
    (applySize (applyPalette (applyNumSlices st cfg.numSlices) cfg.colorPalette).2 cfg.shapeSize).2
    cfg.shapeSpeed
  obtain ⟨k1, k2, k3⟩ := applyRotation_fields
    (applySpeed (applySize (applyPalette (applyNumSlices st cfg.numSlices) cfg.colorPalette).2
      cfg.shapeSize).2 cfg.shapeSpeed).2 cfg.rotationSpeed
  have hflag : ((applyPalette (applyNumSlices st cfg.numSlices) cfg.colorPalette).1 ||
      (applySize (applyPalette (applyNumSlices st cfg.numSlices) cfg.colorPalette).2
        cfg.shapeSize).1 ||
      (applySpeed (applySize (applyPalette (applyNumSlices st cfg.numSlices) cfg.colorPalette).2
        cfg.shapeSize).2 cfg.shapeSpeed).1) = true := by
    rcases hreset with ⟨v, hv, hne⟩ | ⟨v, hv, hne⟩ | ⟨v, hv, hne⟩
    · rw [applyPalette_flag _ _ ⟨v, hv, by rw [f4]; exact hne⟩]
      simp
    · rw [applySize_flag _ _ ⟨v, hv, by rw [g4, f5]; exact hne⟩]
      simp
    · rw [applySpeed_flag _ _ ⟨v, hv, by rw [i5, g5, f6]; exact hne⟩]
      simp
  have hmax5 : (applyRotation (applySpeed (applySize (applyPalette
      (applyNumSlices st cfg.numSlices) cfg.colorPalette).2 cfg.shapeSize).2
      cfg.shapeSpeed).2 cfg.rotationSpeed).maxShapes = st.maxShapes := by
    rw [k1, j1, i1, g1, f1]
  have huid5 : (applyRotation (applySpeed (applySize (applyPalette
      (applyNumSlices st cfg.numSlices) cfg.colorPalette).2 cfg.shapeSize).2
      cfg.shapeSpeed).2 cfg.rotationSpeed).nextUid = st.nextUid := by
    rw [k2, j2, i2, g2, f2]
  simp only [updateConfig]
  rcases hmax with hm | hm <;> rw [hm] <;> dsimp only
  · rw [hflag, if_pos rfl]
    exact adjust_empty_facts _ st rs hmax5 huid5 rfl hinv
  · rw [if_neg (fun hc => hc hmax5.symm), hflag, if_pos rfl]
    exact adjust_empty_facts _ st rs hmax5 huid5 rfl hinv

/-- C1 counterexample: when the speed changes and `maxShapes` changes in the
same call, the pre-existing shape survives the call, so the collection is not
regenerated. -/
theorem c1_counterexample :
    shape0 ∈ st0.shapes ∧ shape0.uid < st0.nextUid ∧
    cfg0.shapeSpeed = some 2 ∧ st0.shapeSpeed = 1 ∧ ((2:ℚ) ≠ 1) ∧
    cfg0.maxShapes = some 2 ∧ st0.maxShapes = 1 ∧
    shape0 ∈ (updateConfig st0 cfg0 rs0).shapes := by
  refine ⟨by simp [st0], by decide, rfl, rfl, by norm_num, rfl, rfl, ?_⟩
  simp only [updateConfig, cfg0]
  norm_num [applyNumSlices, applyPalette, applySize, applySpeed, applyRotation,
    adjustShapesArray, st0]

/-- C1 witness: a speed-only change on a concrete state regenerates all
shapes. -/
theorem c1_witness :
    (updateConfig st0 cfg1 rs0).shapes.length = st0.maxShapes ∧
    ∀ sh ∈ (updateConfig st0 cfg1 rs0).shapes, sh ∉ st0.shapes := by
  have h := c1_reset_regenerates st0 cfg1 rs0
    (Or.inr (Or.inr ⟨2, rfl, by norm_num [st0]⟩))
    (Or.inl rfl)
    (by
      intro sh hsh
      simp only [st0, List.mem_singleton] at hsh
      subst hsh
      decide)
  exact ⟨h.1, h.2.2⟩

/-! ## Color claims -/

/-- C2 counterexample: for the valid color "#FF0000", interpolating it with
itself returns the lowercase canonical "#ff0000", not the input string
unchanged. -/
theorem c2_counterexample :
    hexToRgb "#FF0000" = some (255, 0, 0) ∧
    interpolateColor "#FF0000" "#FF0000" (1/2) = "#ff0000" ∧
    "#ff0000" ≠ "#FF0000" := by
  refine ⟨by decide, ?_, by decide⟩
  rw [interp_self "#FF0000" 255 0 0 (1/2) (by decide)]
  decide

/-- C2 amended: for every valid color c and every factor, interpolateColor(c,
c, f) returns the canonical rendering of c ('#' plus six lowercase hex
digits); in particular it returns exactly c whenever c is already written
canonically. -/
theorem c2_interp_self_canonical (s : String) (rn gn bn : Nat) (f : ℚ)
    (h : hexToRgb s = some (rn, gn, bn)) :
    interpolateColor s s f = hexColorStr rn gn bn ∧
    interpolateColor (hexColorStr rn gn bn) (hexColorStr rn gn bn) f = hexColorStr rn gn bn := by
  obtain ⟨h1, h2, h3⟩ := hexToRgb_bytes s rn gn bn h
  refine ⟨interp_self s rn gn bn f h, interp_self _ rn gn bn f ?_⟩
  exact hexToRgb_hexColorStr rn gn bn (by omega) (by omega) (by omega)

/-- C2 witness: a canonical color is returned exactly unchanged. -/
theorem c2_witness : interpolateColor "#a0646e" "#a0646e" (1/3) = "#a0646e" := by
  have h := (c2_interp_self_canonical "#a0646e" 160 100 110 (1/3) (by decide)).1
  rw [h]
  decide

/-- C3: hue interpolation takes the shortest angular path: for the hues 350
and 10 (realised by concrete colors), the factor-1/2 hue is 0, not 180, and
the interpolated hue always lands in [0, 360). -/
theorem c3_hue_shortest_path :
    hexToHsl "#a0646e" = some (350, 6/25, 26/51) ∧
    hexToHsl "#a06e64" = some (10, 6/25, 26/51) ∧
    interpHue 350 10 (1/2) = 0 ∧
    interpHue 350 10 (1/2) ≠ 180 ∧
    (∀ h1 h2 f : ℚ, 0 ≤ interpHue h1 h2 f ∧ interpHue h1 h2 f < 360) := by
  have h0 : interpHue 350 10 (1/2) = 0 := by
    norm_num [interpHue, jsMod, jsTrunc]
  refine ⟨?_, ?_, h0, by rw [h0]; norm_num, fun h1 h2 f => interpHue_bounds h1 h2 f⟩
  · have hp : hexToRgb "#a0646e" = some (160, 100, 110) := by decide
    rw [hexToHsl, hp]
    simp only [Option.map_some', Option.some.injEq]
    norm_num [rgb2hsl, max_def, min_def]
  · have hp : hexToRgb "#a06e64" = some (160, 110, 100) := by decide
    rw [hexToHsl, hp]
    simp only [Option.map_some', Option.some.injEq]
    norm_num [rgb2hsl, max_def, min_def]

/-- C4: for every valid 6-hex-digit color, converting with hexToHsl and back
with hslToHex gives a color whose channels differ from the original by at
most 1 (in exact rational arithmetic, by exactly 0). -/
theorem c4_roundtrip_tolerance (s : String) (rn gn bn : Nat) (hsl : ℚ × ℚ × ℚ)
    (h : hexToRgb s = some (rn, gn, bn)) (hh : hexToHsl s = some hsl) :
    ∃ rn2 gn2 bn2 : Nat,
      hexToRgb (hslToHex hsl.1 hsl.2.1 hsl.2.2) = some (rn2, gn2, bn2) ∧
      ((rn2:ℤ) - rn).natAbs ≤ 1 ∧ ((gn2:ℤ) - gn).natAbs ≤ 1 ∧ ((bn2:ℤ) - bn).natAbs ≤ 1 := by
  obtain ⟨h1, h2, h3⟩ := hexToRgb_bytes s rn gn bn h
  rw [hexToHsl, h] at hh
  simp only [Option.map_some'] at hh
  obtain rfl := (Option.some.inj hh).symm
  refine ⟨rn, gn, bn, ?_, by simp, by simp, by simp⟩
  rw [hslToHex_rt rn gn bn h1 h2 h3]
  exact hexToRgb_hexColorStr rn gn bn (by omega) (by omega) (by omega)

/-- C4 witness: the round trip on the concrete color "#a0646e". -/
theorem c4_witness :
    ∃ rn2 gn2 bn2 : Nat,
      hexToRgb (hslToHex (rgb2hsl (((160:Nat):ℚ)/255) (((100:Nat):ℚ)/255) (((110:Nat):ℚ)/255)).1
        (rgb2hsl (((160:Nat):ℚ)/255) (((100:Nat):ℚ)/255) (((110:Nat):ℚ)/255)).2.1
        (rgb2hsl (((160:Nat):ℚ)/255) (((100:Nat):ℚ)/255) (((110:Nat):ℚ)/255)).2.2) =
        some (rn2, gn2, bn2) ∧
      ((rn2:ℤ) - 160).natAbs ≤ 1 ∧ ((gn2:ℤ) - 100).natAbs ≤ 1 ∧ ((bn2:ℤ) - 110).natAbs ≤ 1 := by
  refine c4_roundtrip_tolerance "#a0646e" 160 100 110 _ (by decide) ?_
  rw [hexToHsl, (by decide : hexToRgb "#a0646e" = some (160, 100, 110))]
  rfl

/-- C7: hex parsing accepts exactly the well-formed 6-hex-digit colors
(returning none, not an exception, on every malformed input), and
interpolateColor falls back to its first argument whenever either input fails
to parse. -/
theorem c7_parse_fail_soft :
    (∀ s : String, (hexToRgb s).isSome = specValidHex s) ∧
    (∀ c1 c2 : String, ∀ f : ℚ, (hexToRgb c1 = none ∨ hexToRgb c2 = none) →
      interpolateColor c1 c2 f = c1) := by
  refine ⟨hexToRgb_isSome_iff, fun c1 c2 f h => interp_fallback c1 c2 f ?_⟩
  rcases h with h | h
  · exact Or.inl ((hexToHsl_none_iff c1).2 h)
  · exact Or.inr ((hexToHsl_none_iff c2).2 h)

/-- C7 witness: an unparseable first color is returned unchanged. -/
theorem c7_witness : interpolateColor "zzz" "#00ff00" (1/2) = "zzz" :=
  c7_parse_fail_soft.2 "zzz" "#00ff00" (1/2) (Or.inl (by decide))

end Kaleidoscope
